import Mathlib

/-!
Verification of the gas-utils date helpers (src/app/code.ts, src/app/type-check.ts)
and of the declaration-generation build scripts, shallowly embedded from the
TypeScript/JavaScript source.

Runtime values are modelled by `JSValue`; a JS `Date` object is its internal
time value (`none` when the timestamp is NaN, i.e. an "Invalid Date").
Host date parsing (`new Date(string)`, after TimeClip) is a parameter
`parse : String → Option Int`; `new Date(number)` follows ECMAScript TimeClip
with finite doubles modelled by integers (the code never uses fractional
milliseconds).
-/

namespace GasUtils

/-- A JS `Date` object: its internal time value in milliseconds, or `none`
when the internal timestamp is NaN (an "Invalid Date"). -/
structure JSDate where
  time : Option Int
deriving DecidableEq

/-- A JS number as used by `new Date(number)`: NaN, an infinity, or a finite
value (modelled integrally; `TimeClip` truncates fractions anyway). -/
inductive JSNumber where
  | nan : JSNumber
  | infinite (positive : Bool) : JSNumber
  | finite (k : Int) : JSNumber
deriving DecidableEq

/-- A runtime value reaching `toDate` / `isDate`. `other` stands for any value
that is none of the listed shapes (booleans, plain objects, ...); in the code
all of those fall through every branch test to the final `return defaultValue`. -/
inductive JSValue where
  | date (d : JSDate) : JSValue
  | num (n : JSNumber) : JSValue
  | str (s : String) : JSValue
  | null : JSValue
  | undefined : JSValue
  | other : JSValue
deriving DecidableEq

/-- A thrown JS error; the code only ever throws `TypeError`. -/
inductive JSError where
  | typeError (message : String) : JSError
deriving DecidableEq

/-- `new Date(n).getTime()` for a number `n`: ECMAScript TimeClip — NaN for a
non-finite argument or one whose magnitude exceeds 8.64e15, the (truncated)
value otherwise. -/
def numTime : JSNumber → Option Int
  | .nan => none
  | .infinite _ => none
  | .finite k => if k.natAbs ≤ 8640000000000000 then some k else none

/-- src/app/code.ts `toDate` (lines 12-20), branch for branch:
`value == null` (loosely, so null or undefined) returns the default;
a `Date` instance returns the default when its timestamp is NaN, else itself;
a string or number is converted via `new Date(value)`, returning the default
when the result's timestamp is NaN; anything else returns the default.
`defaultValue = none` models the parameter being absent / undefined. -/
def toDate (parse : String → Option Int) (value : JSValue)
    (defaultValue : Option JSDate) : Option JSDate :=
  match value with
  | .null => defaultValue
  | .undefined => defaultValue
  | .date d =>
    match d.time with
    | none => defaultValue
    | some _ => some d
  | .str s =>
    match parse s with
    | none => defaultValue
    | some t => some ⟨some t⟩
  | .num n =>
    match numTime n with
    | none => defaultValue
    | some t => some ⟨some t⟩
  | .other => defaultValue

/-- src/app/code.ts `toDateStrict` (lines 29-33): delegates to `toDate` and
throws `TypeError('Value cannot be converted to Date')` when that result is
undefined. -/
def toDateStrict (parse : String → Option Int) (value : JSValue)
    (defaultValue : Option JSDate) : Except JSError JSDate :=
  match toDate parse value defaultValue with
  | some d => Except.ok d
  | none => Except.error (JSError.typeError "Value cannot be converted to Date")

/-- src/app/type-check.ts `isDate` (lines 5-7):
`value instanceof Date && !Number.isNaN(value.getTime())`. -/
def isDate (value : JSValue) : Bool :=
  match value with
  | .date d => d.time.isSome
  | _ => false

/-- The body of `toDate` embedded in the exception monad: every JS construct
it uses (loose equality, `instanceof`, `typeof`, `new Date`, `getTime`,
`Number.isNaN`, the conditional operator, `return`) is non-throwing, so each
branch yields `Except.ok`. -/
def toDateE (parse : String → Option Int) (value : JSValue)
    (defaultValue : Option JSDate) : Except JSError (Option JSDate) :=
  match value with
  | .null => Except.ok defaultValue
  | .undefined => Except.ok defaultValue
  | .date d =>
    match d.time with
    | none => Except.ok defaultValue
    | some _ => Except.ok (some d)
  | .str s =>
    match parse s with
    | none => Except.ok defaultValue
    | some t => Except.ok (some ⟨some t⟩)
  | .num n =>
    match numTime n with
    | none => Except.ok defaultValue
    | some t => Except.ok (some ⟨some t⟩)
  | .other => Except.ok defaultValue

/-- A concrete host parse function for witnesses: parses exactly the ISO
string "2023-01-01" (epoch 1672531200000 ms) and nothing else. -/
def parse0 : String → Option Int :=
  fun s => if s = "2023-01-01" then some 1672531200000 else none

/-- Does `toDateStrict`'s result represent a thrown error? -/
def throwsResult (r : Except JSError JSDate) : Bool :=
  match r with
  | .error _ => true
  | .ok _ => false

/-- C1: for a valid Date object, a number, or a string that the host date
parser accepts, `toDate` returns the Date interpreting that input; for null,
undefined, an invalid Date, an unparseable number or string, or any other
value, it returns the supplied default (`none` = no default supplied). -/
theorem toDate_spec (parse : String → Option Int) (dv : Option JSDate) :
    (∀ t : Int, toDate parse (JSValue.date ⟨some t⟩) dv = some ⟨some t⟩)
    ∧ (∀ n t, numTime n = some t → toDate parse (JSValue.num n) dv = some ⟨some t⟩)
    ∧ (∀ s t, parse s = some t → toDate parse (JSValue.str s) dv = some ⟨some t⟩)
    ∧ toDate parse JSValue.null dv = dv
    ∧ toDate parse JSValue.undefined dv = dv
    ∧ (∀ d : JSDate, d.time = none → toDate parse (JSValue.date d) dv = dv)
    ∧ (∀ n, numTime n = none → toDate parse (JSValue.num n) dv = dv)
    ∧ (∀ s, parse s = none → toDate parse (JSValue.str s) dv = dv) := by
  refine ⟨fun t => rfl, fun n t h => ?_, fun s t h => ?_, rfl, rfl,
    fun d h => ?_, fun n h => ?_, fun s h => ?_⟩
  · simp [toDate, h]
  · simp [toDate, h]
  · obtain ⟨tv⟩ := d
    cases tv with
    | none => rfl
    | some t => cases h
  · simp [toDate, h]
  · simp [toDate, h]

/-- C1 witness: scenario B at the concrete parser `parse0`:
`toDate('2023-01-01')` is the parsed date, `toDate(null, undefined)` is
undefined, `toDate('not-a-date', fallback)` is the fallback. -/
theorem toDate_spec_witness :
    toDate parse0 (JSValue.str "2023-01-01") none = some ⟨some 1672531200000⟩
    ∧ toDate parse0 JSValue.null none = none
    ∧ toDate parse0 (JSValue.str "not-a-date") (some ⟨some 99⟩) = some ⟨some 99⟩ :=
  ⟨(toDate_spec parse0 none).2.2.1 "2023-01-01" 1672531200000 (by decide),
   (toDate_spec parse0 none).2.2.2.1,
   (toDate_spec parse0 (some ⟨some 99⟩)).2.2.2.2.2.2.2 "not-a-date" (by decide)⟩

/-- C2: `toDateStrict` returns exactly `toDate`'s result when that is
defined, and throws a TypeError when it is undefined. -/
theorem toDateStrict_spec (parse : String → Option Int) (v : JSValue)
    (dv : Option JSDate) :
    (∀ d, toDate parse v dv = some d → toDateStrict parse v dv = Except.ok d)
    ∧ (toDate parse v dv = none →
        toDateStrict parse v dv =
          Except.error (JSError.typeError "Value cannot be converted to Date")) := by
  constructor
  · intro d h
    simp [toDateStrict, h]
  · intro h
    simp [toDateStrict, h]

/-- C2 witness: `toDateStrict('bad-input')` with no default throws a
TypeError; `toDateStrict('bad-input', fallback)` returns the fallback. -/
theorem toDateStrict_spec_witness :
    toDateStrict parse0 (JSValue.str "bad-input") none =
      Except.error (JSError.typeError "Value cannot be converted to Date")
    ∧ toDateStrict parse0 (JSValue.str "bad-input") (some ⟨some 99⟩) =
      Except.ok ⟨some 99⟩ :=
  ⟨(toDateStrict_spec parse0 (JSValue.str "bad-input") none).2 (by decide),
   (toDateStrict_spec parse0 (JSValue.str "bad-input") (some ⟨some 99⟩)).1
     ⟨some 99⟩ (by decide)⟩

/-- C3: `isDate v` is true exactly when `v` is a Date instance whose internal
timestamp is not NaN; in particular it is false for an invalid Date and for
every non-Date value. -/
theorem isDate_spec (v : JSValue) :
    isDate v = true ↔ ∃ t : Int, v = JSValue.date ⟨some t⟩ := by
  constructor
  · intro h
    cases v with
    | date d =>
      obtain ⟨tv⟩ := d
      cases tv with
      | none => cases h
      | some t => exact ⟨t, rfl⟩
    | num n => cases h
    | str s => cases h
    | null => cases h
    | undefined => cases h
    | other => cases h
  · rintro ⟨t, rfl⟩
    rfl

/-- C3 witness: a valid Date is accepted and an invalid Date is rejected. -/
theorem isDate_spec_witness :
    isDate (JSValue.date ⟨some 5⟩) = true ∧ isDate (JSValue.date ⟨none⟩) = false :=
  ⟨(isDate_spec (JSValue.date ⟨some 5⟩)).mpr ⟨5, rfl⟩, by decide⟩

/-- C4: `toDate` always terminates with a returned value and never throws:
its exception-monad embedding yields `Except.ok` of the returned value on
every input. -/
theorem toDate_never_throws (parse : String → Option Int) (v : JSValue)
    (dv : Option JSDate) :
    toDateE parse v dv = Except.ok (toDate parse v dv) := by
  cases v with
  | date d =>
    obtain ⟨tv⟩ := d
    cases tv <;> rfl
  | num n =>
    cases hn : numTime n <;> simp [toDateE, toDate, hn]
  | str s =>
    cases hs : parse s <;> simp [toDateE, toDate, hs]
  | null => rfl
  | undefined => rfl
  | other => rfl

/-- C9: `toDate` and `isDate` agree on Date inputs: a Date accepted by
`isDate` is returned unchanged, a Date rejected by `isDate` yields the
default, and an invalid Date in the result can only be the supplied default. -/
theorem toDate_isDate_agree (parse : String → Option Int) (dv : Option JSDate) :
    (∀ d : JSDate, isDate (JSValue.date d) = true →
        toDate parse (JSValue.date d) dv = some d)
    ∧ (∀ d : JSDate, isDate (JSValue.date d) = false →
        toDate parse (JSValue.date d) dv = dv)
    ∧ (∀ v d', toDate parse v dv = some d' → d'.time = none → dv = some d') := by
  refine ⟨fun d h => ?_, fun d h => ?_, fun v d' h h' => ?_⟩
  · obtain ⟨tv⟩ := d
    cases tv with
    | none => cases h
    | some t => rfl
  · obtain ⟨tv⟩ := d
    cases tv with
    | none => rfl
    | some t => cases h
  · cases v with
    | date d =>
      obtain ⟨tv⟩ := d
      cases tv with
      | none => exact h ▸ rfl
      | some t =>
        cases h
        cases h'
    | num n =>
      cases hn : numTime n <;> rw [toDate, hn] at h
      · exact h ▸ rfl
      · cases h
        cases h'
    | str s =>
      cases hs : parse s <;> rw [toDate, hs] at h
      · exact h ▸ rfl
      · cases h
        cases h'
    | null => exact h ▸ rfl
    | undefined => exact h ▸ rfl
    | other => exact h ▸ rfl

/-- C9 witness: a valid Date flows through unchanged. -/
theorem toDate_isDate_agree_witness :
    toDate parse0 (JSValue.date ⟨some 7⟩) none = some ⟨some 7⟩ :=
  (toDate_isDate_agree parse0 none).1 ⟨some 7⟩ (by decide)

/-- C10: when any default Date is supplied, `toDateStrict` never throws (for
every input value the underlying `toDate` result is defined), and a throw
implies no default was supplied. -/
theorem toDateStrict_no_throw_with_default (parse : String → Option Int)
    (v : JSValue) (dvo : Option JSDate) :
    (∀ dv : JSDate, throwsResult (toDateStrict parse v (some dv)) = false)
    ∧ (throwsResult (toDateStrict parse v dvo) = true → dvo = none) := by
  have key : ∀ dv : JSDate, ∀ w : JSValue,
      toDate parse w (some dv) ≠ none := by
    intro dv w
    cases w with
    | date d =>
      obtain ⟨tv⟩ := d
      cases tv <;> simp [toDate]
    | num n => cases hn : numTime n <;> simp [toDate, hn]
    | str s => cases hs : parse s <;> simp [toDate, hs]
    | null => simp [toDate]
    | undefined => simp [toDate]
    | other => simp [toDate]
  constructor
  · intro dv
    rcases hd : toDate parse v (some dv) with _ | d
    · exact absurd hd (key dv v)
    · simp [toDateStrict, throwsResult, hd]
  · intro h
    cases dvo with
    | none => rfl
    | some dv =>
      rcases hd : toDate parse v (some dv) with _ | d
      · exact absurd hd (key dv v)
      · rw [toDateStrict, hd] at h
        cases h

/-- C10 witness: with a default supplied, an unparseable string does not
throw. -/
theorem toDateStrict_no_throw_with_default_witness :
    throwsResult (toDateStrict parse0 (JSValue.str "nope") (some ⟨some 3⟩)) = false :=
  (toDateStrict_no_throw_with_default parse0 (JSValue.str "nope") none).1 ⟨some 3⟩

/-! ## String primitives used by the build scripts

The build scripts (the npm-types generator and the JSDoc generator) operate
on plain JS strings. The operations they use (`startsWith`, `includes`,
`trim`, `replace` of a literal, `split('\n')`, `join`) are embedded below as
executable list-of-character functions. JS `\s` is modelled by its ASCII
subset (all inputs in this repository are ASCII). -/

/-- JS whitespace as used by `trim` and `\s` (ASCII subset). -/
def isJsWs (c : Char) : Bool :=
  c = ' ' || c = '\t' || c = '\n' || c = '\r' || c = '\x0b' || c = '\x0c'

/-- Is `pat` an initial segment of `s`? (JS `String.prototype.startsWith`.) -/
def leadsWith : List Char → List Char → Bool
  | [], _ => true
  | _ :: _, [] => false
  | p :: ps, c :: cs => p = c && leadsWith ps cs

/-- JS `pat.startsWith` lifted to `String`. -/
def strLeads (pat s : String) : Bool := leadsWith pat.toList s.toList

/-- Does `pat` occur in `s`? (JS `String.prototype.includes`.) -/
def hasSubL (pat : List Char) : List Char → Bool
  | [] => leadsWith pat []
  | c :: t => leadsWith pat (c :: t) || hasSubL pat t

/-- JS `s.includes(pat)`. -/
def hasSub (pat s : String) : Bool := hasSubL pat.toList s.toList

/-- Replace the first occurrence of `pat` by `rep`
(JS `String.prototype.replace` with a string pattern). -/
def replaceFirstL (pat rep : List Char) : List Char → List Char
  | [] => if leadsWith pat [] then rep else []
  | c :: t =>
    if leadsWith pat (c :: t) then rep ++ (c :: t).drop pat.length
    else c :: replaceFirstL pat rep t

/-- JS `s.replace(pat, rep)` for a string pattern (first occurrence only). -/
def replaceFirst (s pat rep : String) : String :=
  String.mk (replaceFirstL pat.toList rep.toList s.toList)

/-- JS `trim` on a character list. -/
def jsTrimL (l : List Char) : List Char :=
  ((l.dropWhile isJsWs).reverse.dropWhile isJsWs).reverse

/-- JS `s.trim()`. -/
def strTrim (s : String) : String := String.mk (jsTrimL s.toList)

/-- Drop everything through the first occurrence of `pat`, returning the
remainder; `none` when `pat` does not occur. -/
def dropThroughPat (pat : List Char) : List Char → Option (List Char)
  | [] => if leadsWith pat [] then some [] else none
  | c :: t =>
    if leadsWith pat (c :: t) then some ((c :: t).drop pat.length)
    else dropThroughPat pat t

/-- Do the patterns all occur in `hay`, in the given order, without
overlapping? -/
def containsSeq (hay : List Char) : List (List Char) → Bool
  | [] => true
  | p :: ps =>
    match dropThroughPat p hay with
    | none => false
    | some rest => containsSeq rest ps

/-! ## JSDoc comment cleaning (shared by both build scripts)

`extractCleanComment` in the build scripts runs
`.replace(/\/\*\*|\*\//g, '').replace(/^\s*\*\s?/gm, '').split('\n')
 .map(l => l.trim())` and then filters/joins. The global comment-delimiter
removal and the per-line leading-star removal are embedded below; the
multiline star-strip is applied per split line, which agrees with the global
replace because every surviving line is subsequently trimmed and
empty-filtered at each call site, erasing whitespace-only differences. -/

/-- Remove every occurrence of the comment delimiters, scanning left to
right with the alternation order of the source regex (try the opener before
the closer at each position). -/
def removeDelims : List Char → List Char
  | '/' :: '*' :: '*' :: rest => removeDelims rest
  | '*' :: '/' :: rest => removeDelims rest
  | c :: rest => c :: removeDelims rest
  | [] => []

/-- Split on newline characters (JS `split('\n')`). -/
def splitOnNl : List Char → List (List Char)
  | [] => [[]]
  | '\n' :: rest => [] :: splitOnNl rest
  | c :: rest =>
    match splitOnNl rest with
    | l :: ls => (c :: l) :: ls
    | [] => [[c]]

/-- One line's worth of the `^\s*\*\s?` replacement: drop leading
whitespace followed by a star and at most one further whitespace
character; a line with no star after its leading whitespace is unchanged. -/
def stripStarLine (l : List Char) : List Char :=
  match l.dropWhile isJsWs with
  | '*' :: r =>
    (match r with
     | c :: r2 => if isJsWs c then r2 else c :: r2
     | [] => [])
  | _ => l

/-- The comment's lines after delimiter removal, star stripping and
trimming: the common start of `extractCleanComment` and of the
`originalLines` computation in the npm-types generator. -/
def commentLines (c : String) : List String :=
  (splitOnNl (removeDelims c.toList)).map fun l => String.mk (jsTrimL (stripStarLine l))

/-- JS truthiness of an optional comment string (`if (x.comment)`,
`if (!jsdocComment)`). -/
def hasComment : Option String → Bool
  | none => false
  | some c => !(c == "")

/-- `extractCleanComment` (identical in both build scripts): the comment's
non-tag, non-empty lines joined by single spaces. -/
def extractCleanComment (jsdocComment : Option String) : String :=
  match jsdocComment with
  | none => ""
  | some c =>
    if c = "" then ""
    else
      strTrim (String.intercalate " "
        ((commentLines c).filter fun l => !(l == "") && !(strLeads "@" l)))

/-! ## Data model of the extraction pipeline

A `SourceUnit` is the ordered list of its (relevant) top-level declarations;
`ts-morph`'s `getTypeAliases()` / `getFunctions()` return the file's
declarations of each kind in document order, modelled here by filtering that
list. -/

/-- A function parameter: name, type annotation text (`none` when the
parameter has no type node), and whether it carries a question token. -/
structure Param where
  name : String
  typeNode : Option String
  optional : Bool
deriving DecidableEq

/-- A top-level declaration of a source file, in document order within a
`List Decl`: a type alias or a function, each with its optional JSDoc
comment text and its export marker. -/
inductive Decl where
  | typeAlias (name : String) (typeNode : Option String)
      (comment : Option String) (exported : Bool) : Decl
  | func (name : String) (parameters : List Param) (returnTypeNode : Option String)
      (comment : Option String) (exported : Bool) : Decl
deriving DecidableEq

/-- `x?.getText() || 'any'`: the annotation text with the `'any'` fallback
for a missing or empty type node. -/
def orAny : Option String → String
  | none => "any"
  | some s => if s = "" then "any" else s

/-- An extracted exported type alias (`{ name, definition, comment }`, same
record shape in both build scripts). -/
structure TypeRec where
  name : String
  definition : String
  comment : Option String
deriving DecidableEq

/-- An extracted exported function as collected by the JSDoc generator's
`extractExportsFromFile` (`{ name, parameters, returnType, comment }`; the
opaque `funcNode` back-reference is not modelled). -/
structure FuncRec where
  name : String
  parameters : List Param
  returnType : String
  comment : Option String
deriving DecidableEq

/-- An extracted exported function as collected by the npm-types generator
(`{ name, signature, comment }` with the signature pre-rendered). -/
structure IfaceRec where
  name : String
  signature : String
  comment : Option String
deriving DecidableEq

/-- An exported record of either kind, for stating ordering properties over
the combined extraction result. -/
inductive ExportRec where
  | ty (t : TypeRec) : ExportRec
  | fn (f : FuncRec) : ExportRec
deriving DecidableEq

/-- The type-alias half of `extractExportsFromFile`:
`getTypeAliases().filter(t => t.isExported())` followed by the record-push
loop. -/
def exportedTypeRec : Decl → Option TypeRec
  | .typeAlias n ty c true => some ⟨n, orAny ty, c⟩
  | _ => none

/-- The function half of `extractExportsFromFile`:
`getFunctions().filter(f => f.isExported())` followed by the record-push
loop. -/
def exportedFuncRec : Decl → Option FuncRec
  | .func n ps ret c true => some ⟨n, ps, orAny ret, c⟩
  | _ => none

/-- `extractExportsFromFile` of the JSDoc generator: all exported type
aliases (in document order), then, separately, all exported functions (in
document order), returned as `{ types, functions }`. -/
def extractExportsFromFile (su : List Decl) : List TypeRec × List FuncRec :=
  (su.filterMap exportedTypeRec, su.filterMap exportedFuncRec)

/-- Modelled from the spec: "return the ordered list of ExportedType and
ExportedFunction records whose declaration is explicitly marked exported",
with "ordering is source order (top-to-bottom)" across both kinds. Used as
the comparison point for the extractor's actual grouped output. -/
def exportsInSourceOrder (su : List Decl) : List ExportRec :=
  su.filterMap fun d =>
    match d with
    | .typeAlias n ty c true => some (ExportRec.ty ⟨n, orAny ty, c⟩)
    | .func n ps ret c true => some (ExportRec.fn ⟨n, ps, orAny ret, c⟩)
    | _ => none

/-- The extractor's combined output as one list, in the order every
downstream consumer sees it: all type records, then all function records. -/
def exportRecList (su : List Decl) : List ExportRec :=
  ((extractExportsFromFile su).1.map ExportRec.ty)
    ++ ((extractExportsFromFile su).2.map ExportRec.fn)

/-! ## The tag-line regular expressions of the JSDoc generator

`getParamDescription` builds
`new RegExp('@param[^\n]*NAME[^\n]*-\s*([^\n]+)', 'i')` through a template
string, where the written `\\n` / `\\s` denote a single backslash in the
resulting string, hence a newline class / whitespace class in the regex.

`getReturnDescription` instead uses the regex literal
`/@returns?[^\\n]*-\\s*([^\\n]+)/i`. In a regex literal `\\` is an escaped
backslash, so there `[^\\n]` is the class "neither a backslash nor the
letter n" and `-\\s*` is a dash, then a literal backslash, then zero or more
letters s.

Both patterns are fixed alternation-free token sequences: literals, an
optional literal, greedy classes, and one final capturing group. They are
interpreted by a backtracking matcher over such token lists; the matcher is
fuelled so that it is structurally recursive (the fuel passed by
`searchToksAux` strictly exceeds the maximal backtracking depth
`|toks| * (|input| + 1) + |toks|`, so it never runs out). -/

/-- One token of the fixed patterns above. `lit`/`opt` compare
case-insensitively (both patterns carry the `i` flag); `starN p n` is the
internal state of a greedy class trying a match of length `n`. -/
inductive Tok where
  | lit (c : Char) : Tok
  | opt (c : Char) : Tok
  | star (p : Char → Bool) : Tok
  | starN (p : Char → Bool) (n : Nat) : Tok
  | grp (p : Char → Bool) : Tok

/-- Case-insensitive character comparison (ASCII, as both patterns only
contain ASCII). -/
def ciEq (a b : Char) : Bool := a.toLower = b.toLower

/-- Backtracking matcher for a token sequence anchored at the current
position, returning the text of the final capturing group. Greedy pieces
try the longest consumption first, as a JS regex does. The capturing group
is the final token of both patterns, so it greedily takes its maximal run. -/
def matchToksF : Nat → List Tok → List Char → Option (List Char)
  | 0, _, _ => none
  | _ + 1, [], _ => some []
  | fuel + 1, Tok.lit c :: rest, s =>
    match s with
    | [] => none
    | a :: s2 => if ciEq a c then matchToksF fuel rest s2 else none
  | fuel + 1, Tok.opt c :: rest, s =>
    match s with
    | [] => matchToksF fuel rest []
    | a :: s2 =>
      if ciEq a c then
        match matchToksF fuel rest s2 with
        | some r => some r
        | none => matchToksF fuel rest (a :: s2)
      else matchToksF fuel rest (a :: s2)
  | fuel + 1, Tok.star p :: rest, s =>
    matchToksF fuel (Tok.starN p (s.takeWhile p).length :: rest) s
  | fuel + 1, Tok.starN p n :: rest, s =>
    (match matchToksF fuel rest (s.drop n) with
     | some r => some r
     | none =>
       match n with
       | 0 => none
       | m + 1 => matchToksF fuel (Tok.starN p m :: rest) s)
  | fuel + 1, Tok.grp p :: rest, s =>
    let cap := s.takeWhile p
    if cap.isEmpty then none
    else
      match matchToksF fuel rest (s.drop cap.length) with
      | some _ => some cap
      | none => none

/-- Unanchored search: try each start position left to right, as
`String.prototype.match` does for an un-anchored pattern. -/
def searchToksAux (toks : List Tok) : List Char → Option (List Char)
  | [] => matchToksF ((toks.length + 2) * 2) toks []
  | c :: t =>
    match matchToksF ((toks.length + 2) * (t.length + 3)) toks (c :: t) with
    | some r => some r
    | none => searchToksAux toks t

/-- `s.match(pattern)` restricted to its first capturing group. -/
def jsMatchFirst (toks : List Tok) (s : String) : Option String :=
  (searchToksAux toks s.toList).map String.mk

/-- The literal characters of `s` as case-insensitive tokens. -/
def litToks (s : String) : List Tok := s.toList.map Tok.lit

/-- `[^\n]` of the string-built `@param` pattern. -/
def notNl (c : Char) : Bool := !(c = '\n')

/-- `[^\\n]` of the `@returns` regex literal: neither a backslash nor the
letter n (case-insensitively, under the `i` flag). -/
def notBsN (c : Char) : Bool := !(c = '\\') && !(c.toLower = 'n')

/-- `@param[^\n]*NAME[^\n]*-\s*([^\n]+)` with flag `i`. -/
def paramPattern (paramName : String) : List Tok :=
  litToks "@param" ++ [Tok.star notNl] ++ litToks paramName
    ++ [Tok.star notNl, Tok.lit '-', Tok.star isJsWs, Tok.grp notNl]

/-- The `@returns` regex literal as actually written:
`@return`, optional `s`, greedy run of `[^\\n]`, a dash, a literal
backslash, greedy run of `s`, and a capture of `[^\\n]+`. -/
def returnsPattern : List Tok :=
  litToks "@return"
    ++ [Tok.opt 's', Tok.star notBsN, Tok.lit '-', Tok.lit '\\',
        Tok.star (fun c => ciEq c 's'), Tok.grp notBsN]

/-- `getParamDescription`'s no-comment fallback table (the
`if (!jsdocComment)` block). -/
def paramFallbackNoDoc (paramName : String) : String :=
  if paramName = "value" then "The value to convert to a Date"
  else if paramName = "defaultValue" then
    "The default value to return if the value is invalid"
  else "The " ++ paramName ++ " parameter"

/-- `getParamDescription` of the JSDoc generator. -/
def getParamDescription (jsdocComment : Option String) (paramName : String) :
    String :=
  match jsdocComment with
  | none => paramFallbackNoDoc paramName
  | some c =>
    if c = "" then paramFallbackNoDoc paramName
    else
      match jsMatchFirst (paramPattern paramName) c with
      | some cap => strTrim cap
      | none =>
        if paramName = "defaultValue" then
          "The default value to return if the value is invalid"
        else "The value to convert to a Date"

/-- `getReturnDescription`'s no-comment fallback table (the
`if (!jsdocComment)` block). -/
def returnFallbackNoDoc (functionName : String) : String :=
  if functionName = "toDate" then
    "The converted Date or null if the value is invalid"
  else if functionName = "toDateStrict" then "The converted Date"
  else if functionName = "isDate" then "True if the value is a valid Date object"
  else "The return value"

/-- `getReturnDescription` of the JSDoc generator, with the regex literal's
actual (backslash-requiring) semantics. -/
def getReturnDescription (jsdocComment : Option String) (functionName : String) :
    String :=
  match jsdocComment with
  | none => returnFallbackNoDoc functionName
  | some c =>
    if c = "" then returnFallbackNoDoc functionName
    else
      match jsMatchFirst returnsPattern c with
      | some cap => strTrim cap
      | none =>
        if functionName = "toDate" then
          "The converted Date or null if the value is invalid"
        else if functionName = "isDate" then
          "True if the value is a valid Date object"
        else "The converted Date"

/-! ## The npm-types generator (declaration-block renderer) -/

/-- One parameter of a rendered signature:
`` `${name}${isOptional ? '?' : ''}: ${type}` ``. -/
def paramSignature (p : Param) : String :=
  p.name ++ (if p.optional then "?" else "") ++ ": " ++ orAny p.typeNode

/-- The rendered method signature
`` `${name}(${paramSignatures}): ${returnType}` ``. -/
def funcSignature (name : String) (ps : List Param) (ret : Option String) :
    String :=
  name ++ "(" ++ String.intercalate ", " (ps.map paramSignature) ++ "): "
    ++ orAny ret

/-- The npm-types generator's type-alias collection loop (same record and
filter as the JSDoc generator's). -/
def collectTypes (su : List Decl) : List TypeRec := su.filterMap exportedTypeRec

/-- The npm-types generator's function collection loop: exported functions
with their signature pre-rendered. -/
def exportedIfaceRec : Decl → Option IfaceRec
  | .func n ps ret c true => some ⟨n, funcSignature n ps ret, c⟩
  | _ => none

/-- All exported functions of a source unit as interface records, in
document order. -/
def collectInterfaces (su : List Decl) : List IfaceRec :=
  su.filterMap exportedIfaceRec

/-- The lines `generateTypeDeclarations` pushes for one type alias. -/
def typeDeclLines (t : TypeRec) : List String :=
  (if hasComment t.comment then
     (let cleanComment := extractCleanComment t.comment
      if strTrim cleanComment = "" then []
      else ["    /**", "     * " ++ cleanComment, "     */"])
   else [])
  ++ ["    type " ++ t.name ++ " = " ++ t.definition, ""]

/-- Keep a cleaned comment line when it is a `@param`, `@returns` or
`@throws` tag line. -/
def tagLineKeep (l : String) : Bool :=
  strLeads "@param" l || strLeads "@returns" l || strLeads "@throws" l

/-- The lines `generateTypeDeclarations` pushes for the interface member at
position `idx` of `total` functions: the attached comment keeps only the
description and the tag lines, then the signature, then a separating blank
line for every member but the last. -/
def ifaceFuncLines (total idx : Nat) (f : IfaceRec) : List String :=
  (if hasComment f.comment then
     (let cleanComment := extractCleanComment f.comment
      let originalLines :=
        (commentLines (f.comment.getD "")).filter fun l => !(l == "")
      ["      /**"]
        ++ (if strTrim cleanComment = "" then []
            else ["       * " ++ cleanComment])
        ++ (originalLines.filter tagLineKeep).map (fun l => "       * " ++ l)
        ++ ["       */"])
   else [])
  ++ ["      " ++ f.signature]
  ++ (if idx < total - 1 then [""] else [])

/-- The interface-member loop with its running index
(`interfaces.indexOf(func)` resolves to the iteration position). -/
def ifaceLoop (total : Nat) : Nat → List IfaceRec → List String
  | _, [] => []
  | idx, f :: rest => ifaceFuncLines total idx f ++ ifaceLoop total (idx + 1) rest

/-- `generateTypeDeclarations` of the npm-types generator: the nested
`declare namespace Lib \x7b namespace Utils \x7b ... \x7d \x7d` block with
every type alias as a type member followed by one interface holding every
function signature, joined by newlines. -/
def generateTypeDeclarations (types : List TypeRec) (interfaces : List IfaceRec) :
    String :=
  String.intercalate "\n"
    (["declare namespace Lib \x7b", "  namespace Utils \x7b"]
      ++ (types.map typeDeclLines).flatten
      ++ ["    interface Utils \x7b"]
      ++ ifaceLoop interfaces.length 0 interfaces
      ++ ["    \x7d", "  \x7d", "\x7d", "", "declare var Utils: Lib.Utils.Utils", ""])

/-! ## The JSDoc generator (namespaced-documentation renderer) -/

/-- The lines `generateJSDocFromExports` pushes for one type alias. (When a
comment exists its cleaned text is pushed even if empty, unlike the
npm-types renderer.) -/
def typeJsdocLines (t : TypeRec) : List String :=
  ["/**"]
    ++ (if hasComment t.comment then [" * " ++ extractCleanComment t.comment]
        else [])
    ++ [" * @typedef \x7b" ++ t.definition ++ "\x7d Utils." ++ t.name, " */", ""]

/-- One `@param` line: custom `DateValue`-containing types are prefixed with
`Utils.`, an optional parameter is bracketed (with `=null` shown for the
parameter literally named `defaultValue`), and the description comes from
`getParamDescription`. -/
def jsdocParamLine (comment : Option String) (p : Param) : String :=
  let paramType := orAny p.typeNode
  let formattedParamType :=
    if hasSub "DateValue" paramType then "Utils." ++ paramType else paramType
  let paramStr :=
    if p.optional then
      if p.name = "defaultValue" then "[" ++ p.name ++ "=null]"
      else "[" ++ p.name ++ "]"
    else p.name
  " * @param \x7b" ++ formattedParamType ++ "\x7d " ++ paramStr ++ " - "
    ++ getParamDescription comment p.name

/-- The lines `generateJSDocFromExports` pushes for one function: cleaned
description, `@function` tag, `@param` lines, the `@returns` line (with
`undefined` rewritten to `null` in Date-mentioning return types), and a
fixed `@throws` line only for `toDateStrict` when its comment mentions
`@throws`. -/
def funcJsdocLines (f : FuncRec) : List String :=
  ["/**"]
    ++ (if hasComment f.comment then
          (let cc := extractCleanComment f.comment
           if strTrim cc = "" then [] else [" * " ++ cc])
        else [])
    ++ [" * @function Utils." ++ f.name]
    ++ f.parameters.map (jsdocParamLine f.comment)
    ++ [" * @returns \x7b"
          ++ (if hasSub "Date" f.returnType then
                replaceFirst f.returnType "undefined" "null"
              else f.returnType)
          ++ "\x7d " ++ getReturnDescription f.comment f.name]
    ++ (if f.name = "toDateStrict"
          && (match f.comment with
              | some c => hasSub "@throws" c
              | none => false) then
          [" * @throws \x7bError\x7d If the value cannot be converted to a valid Date"]
        else [])
    ++ [" */", ""]

/-- `generateJSDocFromExports` of the JSDoc generator: namespace header, one
typedef block per type alias, one comment block per function, the aggregate
`Utils` typedef (when any function exists), and the trailing
`var Utils = Utils || \x7b\x7d` declaration, joined by newlines. -/
def generateJSDocFromExports (allTypes : List TypeRec)
    (allFunctions : List FuncRec) : String :=
  String.intercalate "\n"
    (["/**", " * @namespace Utils", " */", ""]
      ++ (allTypes.map typeJsdocLines).flatten
      ++ (allFunctions.map funcJsdocLines).flatten
      ++ (if allFunctions.length > 0 then
            ["/**", " * @typedef \x7bObject\x7d Utils"]
              ++ allFunctions.map (fun f => " * @property \x7bfunction\x7d " ++ f.name)
              ++ [" */", ""]
          else [])
      ++ ["/**", " * @type \x7bUtils\x7d", " */", "var Utils = Utils || \x7b\x7d", ""])

/-! ## Theorems about the build scripts -/

/-- A comment that documents its return value with an explicit
`@returns ... - description` tag line. -/
def c5Comment : String :=
  "/**\n * Returns a Date.\n * @returns \x7bDate\x7d - The parsed date\n */"

/-- A comment with an explicit `@param value - description` tag line. -/
def c5ParamComment : String := "/**\n * @param value - The input value\n */"

/-- C5: the describes-then-falls-back contract holds for `@param` but not
for `@returns`: on a comment carrying an explicit `@returns ... - The
parsed date` tag line, `getReturnDescription` still answers the fixed
fallback-table text (the regex literal's `\\n`/`\\s` match a literal
backslash, so the pattern cannot match ordinary comment text), while
`getParamDescription` does recover the documented text. -/
theorem getReturnDescription_ignores_explicit_doc :
    getReturnDescription (some c5Comment) "toDate"
        = "The converted Date or null if the value is invalid"
    ∧ getParamDescription (some c5ParamComment) "value" = "The input value" := by
  constructor
  · decide
  · decide

/-- C6 helper: the extractor's type half is the type restriction of the
source-ordered export list. -/
theorem extractTypes_eq (su : List Decl) :
    (extractExportsFromFile su).1
      = (exportsInSourceOrder su).filterMap fun r =>
          match r with
          | .ty t => some t
          | .fn _ => none := by
  induction su with
  | nil => rfl
  | cons d rest ih =>
    cases d with
    | typeAlias n ty c ex =>
      cases ex <;>
        simpa [extractExportsFromFile, exportsInSourceOrder, exportedTypeRec,
          List.filterMap_cons] using ih
    | func n ps ret c ex =>
      cases ex <;>
        simpa [extractExportsFromFile, exportsInSourceOrder, exportedTypeRec,
          List.filterMap_cons] using ih

/-- C6 helper: the extractor's function half is the function restriction of
the source-ordered export list. -/
theorem extractFuncs_eq (su : List Decl) :
    (extractExportsFromFile su).2
      = (exportsInSourceOrder su).filterMap fun r =>
          match r with
          | .fn f => some f
          | .ty _ => none := by
  induction su with
  | nil => rfl
  | cons d rest ih =>
    cases d with
    | typeAlias n ty c ex =>
      cases ex <;>
        simpa [extractExportsFromFile, exportsInSourceOrder, exportedFuncRec,
          List.filterMap_cons] using ih
    | func n ps ret c ex =>
      cases ex <;>
        simpa [extractExportsFromFile, exportsInSourceOrder, exportedFuncRec,
          List.filterMap_cons] using ih

/-- C6 helper: the combined (types-then-functions) output is a permutation
of the source-ordered export list. -/
theorem exportRecList_perm (su : List Decl) :
    List.Perm (exportRecList su) (exportsInSourceOrder su) := by
  induction su with
  | nil => simp [exportRecList, extractExportsFromFile, exportsInSourceOrder]
  | cons d rest ih =>
    simp only [exportRecList, extractExportsFromFile, exportsInSourceOrder] at ih
    cases d with
    | typeAlias n ty c ex =>
      cases ex
      · simpa [exportRecList, extractExportsFromFile, exportsInSourceOrder,
          exportedTypeRec, exportedFuncRec, List.filterMap_cons] using ih
      · simp only [exportRecList, extractExportsFromFile, exportsInSourceOrder,
          exportedTypeRec, exportedFuncRec, List.filterMap_cons, List.map_cons,
          List.cons_append]
        exact ih.cons _
    | func n ps ret c ex =>
      cases ex
      · simpa [exportRecList, extractExportsFromFile, exportsInSourceOrder,
          exportedTypeRec, exportedFuncRec, List.filterMap_cons] using ih
      · simp only [exportRecList, extractExportsFromFile, exportsInSourceOrder,
          exportedTypeRec, exportedFuncRec, List.filterMap_cons, List.map_cons]
        exact List.perm_middle.trans (ih.cons _)

/-- C6 (amended): the extractor keeps exactly the exported declarations
(silently dropping the rest) with source order preserved inside each kind,
and its combined output is a permutation of the source-ordered export list —
but grouped with every type alias before every function, so source order
across kinds is not preserved. -/
theorem extract_exports_grouped (su : List Decl) :
    ((extractExportsFromFile su).1
        = (exportsInSourceOrder su).filterMap fun r =>
            match r with
            | .ty t => some t
            | .fn _ => none)
    ∧ ((extractExportsFromFile su).2
        = (exportsInSourceOrder su).filterMap fun r =>
            match r with
            | .fn f => some f
            | .ty _ => none)
    ∧ List.Perm (exportRecList su) (exportsInSourceOrder su) :=
  ⟨extractTypes_eq su, extractFuncs_eq su, exportRecList_perm su⟩

/-- A source unit whose exported function precedes its exported type alias. -/
def cexUnit : List Decl :=
  [Decl.func "isDate" [⟨"value", some "unknown", false⟩] (some "boolean") none true,
   Decl.typeAlias "DateValue" (some "Date | number") none true]

/-- C6 counterexample: on a file declaring an exported function before an
exported type alias, the extractor's output is not the source-ordered export
list — the type alias is moved in front of the function. -/
theorem extract_order_counterexample :
    exportRecList cexUnit ≠ exportsInSourceOrder cexUnit := by decide

/-- Scenario A's source unit: exported type alias `DateValue` then exported
function `isDate`, with their comments as in src/app. -/
def scenarioUnit : List Decl :=
  [Decl.typeAlias "DateValue" (some "Date | number | string | null | undefined")
     (some "/**\n * Valid date value types that can be converted to Date\n */")
     true,
   Decl.func "isDate" [⟨"value", some "unknown", false⟩] (some "boolean")
     (some ("/**\n * Returns true if the value is a valid Date object\n"
       ++ " * @param value - The value to convert to Date\n */"))
     true]

/-- The declaration-block output for scenario A. -/
def scenarioOutput : String :=
  generateTypeDeclarations (collectTypes scenarioUnit)
    (collectInterfaces scenarioUnit)

/-- C7: the declaration-block renderer's output for scenario A contains the
`type DateValue = ...` member, then the interface block opener, then the
`isDate(value: unknown): boolean` interface member, in that order. -/
theorem scenario_a_members_in_order :
    containsSeq scenarioOutput.toList
      [("type DateValue = Date | number | string | null | undefined").toList,
       ("interface Utils \x7b").toList,
       ("isDate(value: unknown): boolean").toList] = true := by decide

/-- C8: both renderer variants are deterministic — their output depends only
on the extracted export lists, so equal inputs give byte-identical output
(each renderer is embedded as a pure function of its input, reading no
ambient state). -/
theorem renderers_deterministic (ts ts2 : List TypeRec) (ifs ifs2 : List IfaceRec)
    (fs fs2 : List FuncRec) (h1 : ts = ts2) (h2 : ifs = ifs2) (h3 : fs = fs2) :
    generateTypeDeclarations ts ifs = generateTypeDeclarations ts2 ifs2
    ∧ generateJSDocFromExports ts fs = generateJSDocFromExports ts2 fs2 := by
  subst h1
  subst h2
  subst h3
  exact ⟨rfl, rfl⟩

/-- C8 witness: a concrete repeated run of both renderers on one extracted
export list. -/
theorem renderers_deterministic_witness :
    generateTypeDeclarations [⟨"T", "number", none⟩] [⟨"f", "f(): void", none⟩]
        = generateTypeDeclarations [⟨"T", "number", none⟩] [⟨"f", "f(): void", none⟩]
    ∧ generateJSDocFromExports [⟨"T", "number", none⟩] [⟨"f", [], "void", none⟩]
        = generateJSDocFromExports [⟨"T", "number", none⟩] [⟨"f", [], "void", none⟩] :=
  renderers_deterministic [⟨"T", "number", none⟩] [⟨"T", "number", none⟩]
    [⟨"f", "f(): void", none⟩] [⟨"f", "f(): void", none⟩]
    [⟨"f", [], "void", none⟩] [⟨"f", [], "void", none⟩] rfl rfl rfl

end GasUtils
